import Mathlib

/-!
Shallow embedding of the moodsense analytics backend (src/app.py) and a
verification of its specification.  Pure helper logic (`analyze_risk`, the
rolling-window aggregation of `get_hr_dashboard`, the department grouping)
is translated directly; the storage-mediated `submit_vibe` endpoint is
modelled as explicit state passing over an in-memory store.  The window
average `int(sum / len)` divides through a Python float; on the documented
0-100 battery range (and far beyond, up to the binary64-exact regime) that
quotient is computed exactly, so the average is embedded as truncating
integer division `Int.tdiv`, which coincides with the code there.
-/

namespace MoodSense

/-- Sentiment scorer. Modelled from the spec: the polarity function is the
external TextBlob library, whose code is not part of this repository.
Per the spec (section 4.1) it maps free text to a bounded polarity in
[-1, 1], deterministically, with empty or whitespace-only text scoring 0
and unrecognized tokens degrading to a neutral contribution.  We model it
as a word-lexicon scorer: tokenize on whitespace, average the valences of
the words, and clamp the result to [-1, 1]. -/
def wordValence (w : String) : ℚ :=
  if w = "great" then 4/5
  else if w = "excited" then 1/2
  else if w = "supportive" then 3/5
  else if w = "struggling" then -1/2
  else if w = "worried" then -3/5
  else if w = "unclear" then -2/5
  else 0

/-- Whitespace tokenizer used by the modelled sentiment scorer: `cur` is the
reversed word currently being read. -/
def tokensAux : List Char → List Char → List (List Char)
  | cur, [] => if cur.isEmpty then [] else [cur.reverse]
  | cur, c :: cs =>
      if c.isWhitespace then
        if cur.isEmpty then tokensAux [] cs
        else cur.reverse :: tokensAux [] cs
      else tokensAux (c :: cur) cs

/-- Sentiment scorer. Modelled from the spec: tokenizes on whitespace, and
returns the clamped average valence of the tokens, `0` when there are
none. -/
def score (text : String) : ℚ :=
  let ts := tokensAux [] text.data
  if ts = [] then 0
  else max (-1) (min 1 ((ts.map (fun w => wordValence (String.mk w))).sum / (ts.length : ℚ)))

/-- Risk classifier, from `analyze_risk` in src/app.py. -/
def analyze_risk (avg_battery : Int) : String :=
  if avg_battery < 30 then "High Risk"
  else if avg_battery < 60 then "Monitor"
  else "Stable"

/-- A stored check-in entry, from the `VibeEntry` model in src/app.py.
Timestamps are abstracted as naturals; `battery` is an arbitrary integer
(the code enforces no bounds). -/
structure VibeEntry where
  emp_id : Nat
  timestamp : Nat
  mood : Option String
  battery : Int
  vent_text : String
  sentiment : ℚ
  primary_driver : String
deriving DecidableEq

/-- An employee record, from the `Employee` model in src/app.py. -/
structure Employee where
  id : Nat
  name : String
  role : String
  dept : String
  static_driver : String
deriving DecidableEq

/-- The in-memory image of the database: employees and entries in insertion
order, plus the next fresh employee id. -/
structure Store where
  employees : List Employee
  entries : List VibeEntry
  nextEmpId : Nat
deriving DecidableEq

/-- One serialized history item of the dashboard response, from the
`formatted_history` dictionaries built in `get_hr_dashboard`. -/
structure FormattedEntry where
  timestamp : Nat
  battery : Int
  sentiment : ℚ
  primary_driver : String
  vent_text : String
deriving DecidableEq

/-- Serialization of one entry, from the loop body at src/app.py lines
224-231. -/
def formatEntry (e : VibeEntry) : FormattedEntry :=
  { timestamp := e.timestamp
    battery := e.battery
    sentiment := e.sentiment
    primary_driver := e.primary_driver
    vent_text := e.vent_text }

/-- The rolling aggregation inlined at src/app.py lines 233-239:
`formatted_history[-3:]` is `drop (length - 3)`, the average is
`int(sum / len)` — on the documented battery range the float quotient is
exact, so this is truncation toward zero, `Int.tdiv` — and the current
driver is the last entry's `primary_driver`; an empty history yields the
default average 50 and the fallback driver. -/
def aggregate (formatted_history : List FormattedEntry) (fallback_driver : String) :
    Int × String :=
  if h : formatted_history = [] then (50, fallback_driver)
  else
    let recent := formatted_history.drop (formatted_history.length - 3)
    (Int.tdiv ((recent.map (fun d => d.battery)).sum) (recent.length : Int),
     (formatted_history.getLast h).primary_driver)

lemma tokensAux_whitespace (l : List Char) (h : ∀ c ∈ l, c.isWhitespace = true) :
    tokensAux [] l = [] := by
  induction l with
  | nil => rfl
  | cons c cs ih =>
      have hc := h c (by simp)
      simp only [tokensAux, hc, if_true, List.isEmpty_nil, if_pos]
      exact ih (fun x hx => h x (by simp [hx]))

/-- C2: the risk classifier returns High Risk exactly below 30, Monitor
exactly on [30, 60), and Stable exactly from 60 up, with the boundary
values 29, 30, 59, 60 classified accordingly. -/
theorem risk_classifier_thresholds (e : Int) :
    (analyze_risk e = "High Risk" ↔ e < 30) ∧
    (analyze_risk e = "Monitor" ↔ 30 ≤ e ∧ e < 60) ∧
    (analyze_risk e = "Stable" ↔ 60 ≤ e) ∧
    analyze_risk 29 = "High Risk" ∧ analyze_risk 30 = "Monitor" ∧
    analyze_risk 59 = "Monitor" ∧ analyze_risk 60 = "Stable" := by
  have hb : analyze_risk 29 = "High Risk" ∧ analyze_risk 30 = "Monitor" ∧
      analyze_risk 59 = "Monitor" ∧ analyze_risk 60 = "Stable" := by decide
  refine ⟨?_, ?_, ?_, hb.1, hb.2.1, hb.2.2.1, hb.2.2.2⟩ <;>
    · unfold analyze_risk
      split_ifs with h1 h2 <;> simp_all <;> omega

/-- C3: aggregating an empty history is not an error: for every fallback
driver it returns the fixed default average 50 paired with that fallback
driver. -/
theorem aggregate_empty_history (fb : String) : aggregate [] fb = (50, fb) := rfl

/-- C7: the modelled sentiment score always lies in [-1, 1], and any text
whose characters are all whitespace (in particular the empty text) scores
exactly 0. -/
theorem sentiment_score_bounded_neutral (text : String) :
    (-1 ≤ score text ∧ score text ≤ 1) ∧
    ((∀ c ∈ text.toList, c.isWhitespace = true) → score text = 0) := by
  constructor
  · rw [score]
    by_cases h : tokensAux [] text.data = []
    · simp [h]
    · rw [if_neg h]
      exact ⟨le_max_left _ _, max_le (by norm_num) (min_le_left _ _)⟩
  · intro hws
    have hws' : ∀ c ∈ text.data, c.isWhitespace = true := hws
    rw [score, if_pos (tokensAux_whitespace _ hws')]

theorem sentiment_score_bounded_neutral_witness :
    (∀ c ∈ String.toList "", c.isWhitespace = true) ∧ score "" = 0 :=
  ⟨by decide, (sentiment_score_bounded_neutral "").2 (by decide)⟩

lemma aggregate_fst (history : List FormattedEntry) (fb : String) (h : history ≠ []) :
    (aggregate history fb).1 =
      Int.tdiv (((history.drop (history.length - 3)).map (fun d => d.battery)).sum)
        ((history.drop (history.length - 3)).length : Int) := by
  rw [aggregate, dif_neg h]

lemma aggregate_fst_suffix (l recent : List FormattedEntry) (fb : String)
    (hlen : recent.length = 3) :
    (aggregate (l ++ recent) fb).1 =
      Int.tdiv ((recent.map (fun d => d.battery)).sum) 3 := by
  have hne : l ++ recent ≠ [] := by
    intro hc
    rcases List.append_eq_nil.mp hc with ⟨-, h2⟩
    rw [h2] at hlen
    simp at hlen
  rw [aggregate_fst _ _ hne]
  have hl : (l ++ recent).length - 3 = l.length := by
    rw [List.length_append, hlen]
    omega
  rw [hl, List.drop_left, hlen]
  norm_num

/-- C1: on a non-empty history the rolling aggregation averages, with
integer truncation, exactly the battery values of the trailing window of
length `min 3 (length history)`, takes the current driver from the single
most recent entry, and the result is unchanged when everything before a
trailing window of three entries is replaced arbitrarily. -/
theorem rolling_aggregation_spec (history : List FormattedEntry) (fb : String)
    (h : history ≠ []) :
    (∃ pre recent, history = pre ++ recent ∧
        recent.length = min 3 history.length ∧
        (aggregate history fb).1 =
          Int.tdiv ((recent.map (fun d => d.battery)).sum) (recent.length : Int)) ∧
      (aggregate history fb).2 = (history.getLast h).primary_driver ∧
      (∀ l1 l2 recent : List FormattedEntry, recent.length = 3 →
        (aggregate (l1 ++ recent) fb).1 = (aggregate (l2 ++ recent) fb).1) := by
  refine ⟨?_, ?_, ?_⟩
  · refine ⟨history.take (history.length - 3), history.drop (history.length - 3),
      (List.take_append_drop _ _).symm, ?_, ?_⟩
    · rw [List.length_drop]
      omega
    · exact aggregate_fst history fb h
  · rw [aggregate, dif_neg h]
  · intro l1 l2 recent hlen
    rw [aggregate_fst_suffix _ _ _ hlen, aggregate_fst_suffix _ _ _ hlen]

theorem rolling_aggregation_spec_witness :
    ([⟨1, 80, 0, "A", ""⟩, ⟨2, 40, 0, "B", ""⟩, ⟨3, 20, 0, "C", ""⟩] :
        List FormattedEntry) ≠ [] ∧
      ((∃ pre recent,
          ([⟨1, 80, 0, "A", ""⟩, ⟨2, 40, 0, "B", ""⟩, ⟨3, 20, 0, "C", ""⟩] :
              List FormattedEntry) = pre ++ recent ∧
          recent.length =
            min 3
              ([⟨1, 80, 0, "A", ""⟩, ⟨2, 40, 0, "B", ""⟩, ⟨3, 20, 0, "C", ""⟩] :
                  List FormattedEntry).length ∧
          (aggregate [⟨1, 80, 0, "A", ""⟩, ⟨2, 40, 0, "B", ""⟩, ⟨3, 20, 0, "C", ""⟩] "F").1 =
            Int.tdiv ((recent.map (fun d => d.battery)).sum) (recent.length : Int)) ∧
        (aggregate [⟨1, 80, 0, "A", ""⟩, ⟨2, 40, 0, "B", ""⟩, ⟨3, 20, 0, "C", ""⟩] "F").2 =
          (([⟨1, 80, 0, "A", ""⟩, ⟨2, 40, 0, "B", ""⟩, ⟨3, 20, 0, "C", ""⟩] :
              List FormattedEntry).getLast (by simp)).primary_driver ∧
        (∀ l1 l2 recent : List FormattedEntry, recent.length = 3 →
          (aggregate (l1 ++ recent) "F").1 = (aggregate (l2 ++ recent) "F").1)) :=
  ⟨by simp, rolling_aggregation_spec _ "F" (by simp)⟩

/-- One step of the `dept_map` construction of src/app.py lines 252-255:
if the department is already a key, append the value to its list,
otherwise add the department at the end (Python dict insertion order). -/
def insertPair : List (String × List Int) → String → Int → List (String × List Int)
  | [], d, v => [(d, [v])]
  | g :: rest, d, v =>
      if g.1 = d then (g.1, g.2 ++ [v]) :: rest
      else g :: insertPair rest d v

/-- The `dept_map` dictionary of src/app.py lines 252-255, built by
scanning the per-employee `(dept, avg_battery)` pairs in order. -/
def dept_map (pairs : List (String × Int)) : List (String × List Int) :=
  pairs.foldl (fun m p => insertPair m p.1 p.2) []

/-- The `final_dept_data` computation of src/app.py lines 257-264: each
department maps to `int(sum(batteries) / len(batteries))`. -/
def aggregate_departments (pairs : List (String × Int)) : List (String × Int) :=
  (dept_map pairs).map (fun g => (g.1, Int.tdiv g.2.sum (g.2.length : Int)))

/-- Association-list lookup of the value list of a department. -/
def lookupVals : List (String × List Int) → String → List Int
  | [], _ => []
  | g :: rest, d => if g.1 = d then g.2 else lookupVals rest d

lemma lookupVals_insertPair_same (m : List (String × List Int)) (d : String) (v : Int) :
    lookupVals (insertPair m d v) d = lookupVals m d ++ [v] := by
  induction m with
  | nil => simp [insertPair, lookupVals]
  | cons g rest ih =>
      by_cases h : g.1 = d
      · simp [insertPair, lookupVals, h]
      · simp [insertPair, lookupVals, h, ih]

lemma lookupVals_insertPair_ne (m : List (String × List Int)) (d d0 : String) (v : Int)
    (hne : d0 ≠ d) :
    lookupVals (insertPair m d0 v) d = lookupVals m d := by
  induction m with
  | nil => simp [insertPair, lookupVals, hne]
  | cons g rest ih =>
      by_cases h : g.1 = d0
      · simp [insertPair, lookupVals, h, hne]
      · simp only [insertPair, if_neg h, lookupVals, ih]

lemma lookupVals_foldl (ps : List (String × Int)) (m : List (String × List Int)) (d : String) :
    lookupVals (ps.foldl (fun m p => insertPair m p.1 p.2) m) d
      = lookupVals m d ++ (ps.filter (fun p => p.1 = d)).map Prod.snd := by
  induction ps generalizing m with
  | nil => simp
  | cons p rest ih =>
      by_cases h : p.1 = d
      · rw [List.foldl_cons, ih, h, lookupVals_insertPair_same]
        simp [List.filter_cons, h]
      · rw [List.foldl_cons, ih, lookupVals_insertPair_ne _ _ _ _ h]
        simp [List.filter_cons, h]

lemma keys_insertPair (m : List (String × List Int)) (d : String) (v : Int) :
    (insertPair m d v).map Prod.fst
      = if d ∈ m.map Prod.fst then m.map Prod.fst else m.map Prod.fst ++ [d] := by
  induction m with
  | nil => simp [insertPair]
  | cons g rest ih =>
      by_cases hg : g.1 = d
      · simp [insertPair, hg]
      · have hgd : ¬d = g.1 := fun hc => hg hc.symm
        by_cases hd : d ∈ rest.map Prod.fst
        · simp [insertPair, hg, ih, hd, hgd]
        · simp [insertPair, hg, ih, hd, hgd]

lemma nodup_keys_insertPair (m : List (String × List Int)) (d : String) (v : Int)
    (h : (m.map Prod.fst).Nodup) : ((insertPair m d v).map Prod.fst).Nodup := by
  rw [keys_insertPair]
  by_cases hd : d ∈ m.map Prod.fst
  · rw [if_pos hd]
    exact h
  · rw [if_neg hd]
    simp [List.nodup_append, h, hd]

lemma nodup_keys_foldl (ps : List (String × Int)) (m : List (String × List Int))
    (h : (m.map Prod.fst).Nodup) :
    (((ps.foldl (fun m p => insertPair m p.1 p.2) m)).map Prod.fst).Nodup := by
  induction ps generalizing m with
  | nil => exact h
  | cons p rest ih =>
      rw [List.foldl_cons]
      exact ih _ (nodup_keys_insertPair m p.1 p.2 h)

lemma lookupVals_of_mem (m : List (String × List Int)) (d : String) (vs : List Int)
    (hnd : (m.map Prod.fst).Nodup) (hm : (d, vs) ∈ m) : lookupVals m d = vs := by
  induction m with
  | nil => simp at hm
  | cons g rest ih =>
      rw [List.map_cons, List.nodup_cons] at hnd
      rcases List.mem_cons.mp hm with h | h
      · simp only [lookupVals]
        rw [if_pos (by rw [← h]), ← h]
      · have hgd : ¬g.1 = d := by
          intro hc
          exact hnd.1 (hc ▸ List.mem_map_of_mem Prod.fst h)
        simp only [lookupVals]
        rw [if_neg hgd]
        exact ih hnd.2 h

/-- C5: every department in the output of the department aggregation maps
to the integer-truncated mean of the `avg_energy` values of exactly the
input pairs whose department name is equal (case-sensitively) to it, and
the worked example from the spec holds. -/
theorem department_aggregation_mean (pairs : List (String × Int)) (d : String) (v : Int)
    (h : (d, v) ∈ aggregate_departments pairs) :
    v = Int.tdiv (((pairs.filter (fun p => p.1 = d)).map Prod.snd).sum)
        (((pairs.filter (fun p => p.1 = d)).map Prod.snd).length : Int) ∧
      aggregate_departments [("Eng", 50), ("Eng", 70)] = [("Eng", 60)] := by
  refine ⟨?_, by decide⟩
  unfold aggregate_departments at h
  obtain ⟨g, hmem, heq⟩ := List.mem_map.mp h
  obtain ⟨hd, hv⟩ := Prod.mk.injEq .. ▸ heq
  have hnd : ((dept_map pairs).map Prod.fst).Nodup := nodup_keys_foldl pairs [] (by simp)
  have hlk : lookupVals (dept_map pairs) d = g.2 := by
    apply lookupVals_of_mem _ _ _ hnd
    rw [← hd]
    exact hmem
  have hspec : lookupVals (dept_map pairs) d
      = (pairs.filter (fun p => p.1 = d)).map Prod.snd := by
    have := lookupVals_foldl pairs [] d
    simpa [lookupVals] using this
  rw [← hv, ← hspec, hlk]

theorem department_aggregation_mean_witness :
    ("Eng", (60 : Int)) ∈ aggregate_departments [("Eng", 50), ("Eng", 70)] ∧
      ((60 : Int) = Int.tdiv
          ((([("Eng", (50 : Int)), ("Eng", 70)].filter
              (fun p => p.1 = "Eng")).map Prod.snd).sum)
          ((([("Eng", (50 : Int)), ("Eng", 70)].filter
              (fun p => p.1 = "Eng")).map Prod.snd).length : Int) ∧
        aggregate_departments [("Eng", 50), ("Eng", 70)] = [("Eng", 60)]) :=
  ⟨by decide, department_aggregation_mean [("Eng", 50), ("Eng", 70)] "Eng" 60 (by decide)⟩

/-- The JSON payload of the submit endpoint as read by `data.get(...)` at
src/app.py lines 161-189: every field may be absent. -/
structure SubmitRequest where
  userName : Option String
  role : Option String
  dept : Option String
  ventText : Option String
  pressureSource : Option String
  mood : Option String
  battery : Option Int
deriving DecidableEq

/-- The response of the submit endpoint, src/app.py lines 201-204. -/
structure SubmitResponse where
  status : String
  sentiment : ℚ
deriving DecidableEq

/-- The effect of `target_emp.static_driver = primary_driver` at
src/app.py line 196: the first employee whose name matches (names carry a
unique constraint) gets its static driver overwritten. -/
def updateDriver : List Employee → String → String → List Employee
  | [], _, _ => []
  | e :: rest, n, drv =>
      if e.name = n then { e with static_driver := drv } :: rest
      else e :: updateDriver rest n drv

/-- The submit endpoint `submit_vibe`, src/app.py lines 159-204, as a
state transformer over the store: read payload fields with their
defaults, find or create the employee, append one entry, overwrite the
employee's static driver with the submitted pressure source, and answer
with the derived sentiment. -/
def submit_vibe (req : SubmitRequest) (now : Nat) (s : Store) : Store × SubmitResponse :=
  let user_name := req.userName.getD "Anonymous"
  let vent_text := req.ventText.getD ""
  let sentiment := score vent_text
  let primary_driver := req.pressureSource.getD "Unknown"
  match s.employees.find? (fun e => e.name = user_name) with
  | some target_emp =>
      ({ employees := updateDriver s.employees user_name primary_driver,
         entries := s.entries ++
           [{ emp_id := target_emp.id, timestamp := now, mood := req.mood,
              battery := req.battery.getD 50, vent_text := vent_text,
              sentiment := sentiment, primary_driver := primary_driver }],
         nextEmpId := s.nextEmpId },
       { status := "success", sentiment := sentiment })
  | none =>
      let target_emp : Employee :=
        { id := s.nextEmpId, name := user_name, role := req.role.getD "Team Member",
          dept := req.dept.getD "General", static_driver := primary_driver }
      ({ employees := s.employees ++ [target_emp],
         entries := s.entries ++
           [{ emp_id := target_emp.id, timestamp := now, mood := req.mood,
              battery := req.battery.getD 50, vent_text := vent_text,
              sentiment := sentiment, primary_driver := primary_driver }],
         nextEmpId := s.nextEmpId + 1 },
       { status := "success", sentiment := sentiment })

lemma submit_vibe_found (req : SubmitRequest) (now : Nat) (s : Store) (e0 : Employee)
    (hf : s.employees.find? (fun e => e.name = req.userName.getD "Anonymous") = some e0) :
    submit_vibe req now s =
      ({ employees := updateDriver s.employees (req.userName.getD "Anonymous")
           (req.pressureSource.getD "Unknown"),
         entries := s.entries ++
           [{ emp_id := e0.id, timestamp := now, mood := req.mood,
              battery := req.battery.getD 50, vent_text := req.ventText.getD "",
              sentiment := score (req.ventText.getD ""),
              primary_driver := req.pressureSource.getD "Unknown" }],
         nextEmpId := s.nextEmpId },
       { status := "success", sentiment := score (req.ventText.getD "") }) := by
  rw [submit_vibe]
  rw [hf]

lemma submit_vibe_new (req : SubmitRequest) (now : Nat) (s : Store)
    (hf : s.employees.find? (fun e => e.name = req.userName.getD "Anonymous") = none) :
    submit_vibe req now s =
      ({ employees := s.employees ++
           [{ id := s.nextEmpId, name := req.userName.getD "Anonymous",
              role := req.role.getD "Team Member", dept := req.dept.getD "General",
              static_driver := req.pressureSource.getD "Unknown" }],
         entries := s.entries ++
           [{ emp_id := s.nextEmpId, timestamp := now, mood := req.mood,
              battery := req.battery.getD 50, vent_text := req.ventText.getD "",
              sentiment := score (req.ventText.getD ""),
              primary_driver := req.pressureSource.getD "Unknown" }],
         nextEmpId := s.nextEmpId + 1 },
       { status := "success", sentiment := score (req.ventText.getD "") }) := by
  rw [submit_vibe]
  rw [hf]

lemma find?_updateDriver_eq (l : List Employee) (n drv : String) :
    (updateDriver l n drv).find? (fun e => e.name = n)
      = (l.find? (fun e => e.name = n)).map (fun e => { e with static_driver := drv }) := by
  induction l with
  | nil => simp [updateDriver]
  | cons e rest ih =>
      by_cases h : e.name = n
      · simp [updateDriver, h, List.find?_cons]
      · simp [updateDriver, h, List.find?_cons, ih]

lemma length_updateDriver (l : List Employee) (n drv : String) :
    (updateDriver l n drv).length = l.length := by
  induction l with
  | nil => rfl
  | cons e rest ih =>
      by_cases h : e.name = n
      · simp [updateDriver, h]
      · simp [updateDriver, h, ih]

lemma mem_updateDriver (l : List Employee) (n drv : String) (e : Employee)
    (he : e ∈ updateDriver l n drv) (hne : e.name ≠ n) : e ∈ l := by
  induction l with
  | nil => simp [updateDriver] at he
  | cons e0 rest ih =>
      by_cases h : e0.name = n
      · rw [updateDriver, if_pos h] at he
        rcases List.mem_cons.mp he with h2 | h2
        · exact absurd (by rw [h2]; exact h) hne
        · exact List.mem_cons_of_mem _ h2
      · rw [updateDriver, if_neg h] at he
        rcases List.mem_cons.mp he with h2 | h2
        · rw [h2]
          exact List.mem_cons_self _ _
        · exact List.mem_cons_of_mem _ (ih h2)

/-- C6: after any submission, the employee record found under the
submitted user name carries the submitted pressure source as its
`static_driver` (last write wins), also when the employee existed before
with history. -/
theorem submit_overwrites_static_driver (req : SubmitRequest) (now : Nat) (s : Store)
    (emp : Employee)
    (h : ((submit_vibe req now s).1.employees.find?
        (fun e => e.name = req.userName.getD "Anonymous")) = some emp) :
    emp.static_driver = req.pressureSource.getD "Unknown" := by
  cases hf : s.employees.find? (fun e => e.name = req.userName.getD "Anonymous") with
  | some e0 =>
      rw [submit_vibe_found req now s e0 hf] at h
      rw [find?_updateDriver_eq, hf] at h
      cases h
      rfl
  | none =>
      rw [submit_vibe_new req now s hf] at h
      rw [List.find?_append, hf, Option.none_or,
        List.find?_cons_of_pos _ (by simp)] at h
      cases h
      rfl

/-- Sample submission naming an existing employee, used to witness the
submit theorems on concrete data. -/
def reqRiya : SubmitRequest :=
  ⟨some "Riya", none, some "Sales", none, some "Team", some "Happy", some 90⟩

/-- Sample store holding the employee Riya with one prior entry. -/
def storeRiya : Store :=
  ⟨[⟨1, "Riya", "Dev", "Eng", "Workload"⟩], [⟨1, 1, some "Tired", 40, "x", 0, "Workload"⟩], 2⟩

theorem submit_overwrites_static_driver_witness :
    ((submit_vibe reqRiya 5 storeRiya).1.employees.find? (fun e => e.name = "Riya")
        = some ⟨1, "Riya", "Dev", "Eng", "Team"⟩) ∧
      Employee.static_driver ⟨1, "Riya", "Dev", "Eng", "Team"⟩ = "Team" :=
  ⟨by decide,
    submit_overwrites_static_driver reqRiya 5 storeRiya
      ⟨1, "Riya", "Dev", "Eng", "Team"⟩ (by decide)⟩

/-- C10: when the submitted user name already names an employee, the
submission leaves that employee's identity, role and department unchanged
(only `static_driver` is overwritten), keeps every other employee as it
was, and only appends one entry to the entry log. -/
theorem submit_preserves_role_dept (req : SubmitRequest) (now : Nat) (s : Store)
    (emp : Employee)
    (h : s.employees.find? (fun e => e.name = req.userName.getD "Anonymous") = some emp) :
    (submit_vibe req now s).1.employees.find?
        (fun e => e.name = req.userName.getD "Anonymous")
      = some { emp with static_driver := req.pressureSource.getD "Unknown" } ∧
    (submit_vibe req now s).1.employees.length = s.employees.length ∧
    (∀ e ∈ (submit_vibe req now s).1.employees,
      e.name ≠ req.userName.getD "Anonymous" → e ∈ s.employees) ∧
    ∃ newEntry, (submit_vibe req now s).1.entries = s.entries ++ [newEntry] := by
  rw [submit_vibe_found req now s emp h]
  refine ⟨?_, length_updateDriver _ _ _, ?_, ⟨_, rfl⟩⟩
  · rw [find?_updateDriver_eq, h]
    rfl
  · intro e he hne
    exact mem_updateDriver _ _ _ _ he hne

/-- Sample submission for the existing employee Omar carrying a different
role and department than the stored record. -/
def reqOmar : SubmitRequest :=
  ⟨some "Omar", some "Chief", some "Board", none, some "Deadlines", none, none⟩

/-- Sample store holding only the employee Omar. -/
def storeOmar : Store :=
  ⟨[⟨3, "Omar", "QA", "Product", "Pay"⟩], [], 4⟩

theorem submit_preserves_role_dept_witness :
    (storeOmar.employees.find? (fun e => e.name = "Omar")
        = some ⟨3, "Omar", "QA", "Product", "Pay"⟩) ∧
      ((submit_vibe reqOmar 9 storeOmar).1.employees.find? (fun e => e.name = "Omar")
          = some ⟨3, "Omar", "QA", "Product", "Deadlines"⟩ ∧
        (submit_vibe reqOmar 9 storeOmar).1.employees.length
          = storeOmar.employees.length ∧
        (∀ e ∈ (submit_vibe reqOmar 9 storeOmar).1.employees,
          e.name ≠ "Omar" → e ∈ storeOmar.employees) ∧
        ∃ newEntry,
          (submit_vibe reqOmar 9 storeOmar).1.entries = storeOmar.entries ++ [newEntry]) :=
  ⟨by decide,
    submit_preserves_role_dept reqOmar 9 storeOmar
      ⟨3, "Omar", "QA", "Product", "Pay"⟩ (by decide)⟩

/-- Empty store used by the submit counterexample and witnesses. -/
def emptyStore : Store := ⟨[], [], 1⟩

/-- Request whose payload carries no field at all. -/
def reqEmpty : SubmitRequest := ⟨none, none, none, none, none, none, none⟩

/-- C8 counterexample: a submission whose payload lacks the `mood` field is
not rejected: it succeeds and stores the entry with an absent mood, so
`mood` is not required by the code. -/
theorem submit_mood_not_required :
    (submit_vibe reqEmpty 0 emptyStore).2.status = "success" ∧
      ∃ e ∈ (submit_vibe reqEmpty 0 emptyStore).1.entries, e.mood = none := by
  refine ⟨rfl, by decide⟩

/-- C8 amended: `mood` is optional and has no default: the submission
succeeds and the appended entry stores the mood exactly as submitted, so a
missing mood is stored as absent; independently of the other fields, each
payload field missing from the request takes its documented default:
battery 50, role Team Member, dept General, pressureSource Unknown. -/
theorem submit_defaults_amended (req : SubmitRequest) (now : Nat) (s : Store) :
    (submit_vibe req now s).2.status = "success" ∧
    (∃ e, (submit_vibe req now s).1.entries = s.entries ++ [e] ∧
      e.mood = req.mood ∧
      (req.battery = none → e.battery = 50) ∧
      (req.pressureSource = none → e.primary_driver = "Unknown")) ∧
    (s.employees.find? (fun x => x.name = req.userName.getD "Anonymous") = none →
      ∃ emp, (submit_vibe req now s).1.employees = s.employees ++ [emp] ∧
        (req.role = none → emp.role = "Team Member") ∧
        (req.dept = none → emp.dept = "General") ∧
        (req.pressureSource = none → emp.static_driver = "Unknown")) := by
  cases hf : s.employees.find? (fun e => e.name = req.userName.getD "Anonymous") with
  | some e0 =>
      rw [submit_vibe_found req now s e0 hf]
      refine ⟨rfl, ⟨_, rfl, rfl, fun hb => by rw [hb]; rfl, fun hp => by rw [hp]; rfl⟩, ?_⟩
      intro hc
      exact Option.noConfusion hc
  | none =>
      rw [submit_vibe_new req now s hf]
      exact ⟨rfl, ⟨_, rfl, rfl, fun hb => by rw [hb]; rfl, fun hp => by rw [hp]; rfl⟩,
        fun _ => ⟨_, rfl, fun hr => by rw [hr]; rfl, fun hd => by rw [hd]; rfl,
          fun hp => by rw [hp]; rfl⟩⟩

/-- Mixed request: role and mood supplied, battery, dept and pressure
source absent, exercising the per-field defaults independently. -/
def reqMixed : SubmitRequest :=
  ⟨some "Zed", some "Chief", none, none, none, some "Happy", none⟩

theorem submit_defaults_amended_witness :
    ((submit_vibe reqMixed 0 emptyStore).2.status = "success" ∧
      (∃ e, (submit_vibe reqMixed 0 emptyStore).1.entries = emptyStore.entries ++ [e] ∧
        e.mood = reqMixed.mood ∧
        (reqMixed.battery = none → e.battery = 50) ∧
        (reqMixed.pressureSource = none → e.primary_driver = "Unknown")) ∧
      (emptyStore.employees.find?
          (fun x => x.name = reqMixed.userName.getD "Anonymous") = none →
        ∃ emp, (submit_vibe reqMixed 0 emptyStore).1.employees
            = emptyStore.employees ++ [emp] ∧
          (reqMixed.role = none → emp.role = "Team Member") ∧
          (reqMixed.dept = none → emp.dept = "General") ∧
          (reqMixed.pressureSource = none → emp.static_driver = "Unknown"))) ∧
      (submit_vibe reqMixed 0 emptyStore).1.employees
        = [⟨1, "Zed", "Chief", "General", "Unknown"⟩] :=
  ⟨submit_defaults_amended reqMixed 0 emptyStore, by decide⟩

/-- Chronological comparison of entries, the `ORDER BY timestamp ASC` of
the dashboard's history query. -/
def byTime (a b : VibeEntry) : Prop := a.timestamp ≤ b.timestamp

instance : DecidableRel byTime :=
  fun a b => inferInstanceAs (Decidable (a.timestamp ≤ b.timestamp))

instance : IsTotal VibeEntry byTime :=
  ⟨fun a b => Nat.le_total a.timestamp b.timestamp⟩

instance : IsTrans VibeEntry byTime :=
  ⟨fun _ _ _ h1 h2 => Nat.le_trans h1 h2⟩

/-- The entries belonging to one employee, src/app.py line 218
(`filter_by(emp_id=...)`), in insertion order. -/
def entriesFor (s : Store) (empId : Nat) : List VibeEntry :=
  s.entries.filter (fun e => e.emp_id = empId)

/-- The employee's history as fetched at src/app.py lines 218-220: the
employee's entries sorted by ascending timestamp (a stable sort; ties keep
insertion order). -/
def sortedHistory (s : Store) (empId : Nat) : List VibeEntry :=
  List.insertionSort byTime (entriesFor s empId)

/-- One element of the dashboard's `employee_list`, src/app.py lines
241-250. -/
structure EmployeeRecord where
  id : Nat
  name : String
  role : String
  dept : String
  risk_status : String
  avg_battery : Int
  primary_driver : String
  history : List FormattedEntry
deriving DecidableEq

/-- The per-employee record assembled by the dashboard loop, src/app.py
lines 217-250. -/
def employeeRecord (s : Store) (emp : Employee) : EmployeeRecord :=
  let formatted_history := (sortedHistory s emp.id).map formatEntry
  let ag := aggregate formatted_history emp.static_driver
  { id := emp.id, name := emp.name, role := emp.role, dept := emp.dept,
    risk_status := analyze_risk ag.1, avg_battery := ag.1,
    primary_driver := ag.2, history := formatted_history }

/-- The dashboard endpoint `get_hr_dashboard`, src/app.py lines 210-269:
the per-employee records in employee order, and the department rollup over
the collected `(dept, avg_battery)` pairs. -/
def get_hr_dashboard (s : Store) : List EmployeeRecord × List (String × Int) :=
  let employee_list := s.employees.map (employeeRecord s)
  (employee_list,
   aggregate_departments (employee_list.map (fun r => (r.dept, r.avg_battery))))

/-- C9: the dashboard answers one record per employee, in order, none
excluded; each record carries the employee's identity fields and its full
history — a permutation of exactly that employee's stored entries,
presented in chronological order — serialized via `formatEntry`, which
preserves timestamp, battery, sentiment, driver and comment; an employee
with zero history gets the default average 50 and its static driver. -/
theorem dashboard_complete_history (s : Store) (i : Nat)
    (hi : i < s.employees.length) :
    (get_hr_dashboard s).1.length = s.employees.length ∧
    (∃ hi2 : i < (get_hr_dashboard s).1.length,
      ((get_hr_dashboard s).1.get ⟨i, hi2⟩).id = (s.employees.get ⟨i, hi⟩).id ∧
      ((get_hr_dashboard s).1.get ⟨i, hi2⟩).name = (s.employees.get ⟨i, hi⟩).name ∧
      ((get_hr_dashboard s).1.get ⟨i, hi2⟩).role = (s.employees.get ⟨i, hi⟩).role ∧
      ((get_hr_dashboard s).1.get ⟨i, hi2⟩).dept = (s.employees.get ⟨i, hi⟩).dept ∧
      (∃ hist : List VibeEntry,
        ((get_hr_dashboard s).1.get ⟨i, hi2⟩).history = hist.map formatEntry ∧
        List.Perm hist (entriesFor s (s.employees.get ⟨i, hi⟩).id) ∧
        List.Sorted byTime hist) ∧
      (entriesFor s (s.employees.get ⟨i, hi⟩).id = [] →
        ((get_hr_dashboard s).1.get ⟨i, hi2⟩).avg_battery = 50 ∧
        ((get_hr_dashboard s).1.get ⟨i, hi2⟩).primary_driver
          = (s.employees.get ⟨i, hi⟩).static_driver)) ∧
    (∀ e : VibeEntry,
      (formatEntry e).timestamp = e.timestamp ∧
      (formatEntry e).battery = e.battery ∧
      (formatEntry e).sentiment = e.sentiment ∧
      (formatEntry e).primary_driver = e.primary_driver ∧
      (formatEntry e).vent_text = e.vent_text) := by
  have hlen : (get_hr_dashboard s).1.length = s.employees.length := by
    simp [get_hr_dashboard]
  refine ⟨hlen, ⟨hlen ▸ hi, ?_⟩, fun e => ⟨rfl, rfl, rfl, rfl, rfl⟩⟩
  have hget : (get_hr_dashboard s).1.get ⟨i, hlen ▸ hi⟩
      = employeeRecord s (s.employees.get ⟨i, hi⟩) := by
    simp [get_hr_dashboard, List.get_eq_getElem]
  rw [hget]
  refine ⟨rfl, rfl, rfl, rfl, ?_, ?_⟩
  · exact ⟨sortedHistory s (s.employees.get ⟨i, hi⟩).id, rfl,
      List.perm_insertionSort byTime _, List.sorted_insertionSort byTime _⟩
  · intro h0
    have hs : sortedHistory s (s.employees.get ⟨i, hi⟩).id = [] := by
      rw [sortedHistory, h0]
      rfl
    constructor
    · show (aggregate ((sortedHistory s (s.employees.get ⟨i, hi⟩).id).map formatEntry)
        (s.employees.get ⟨i, hi⟩).static_driver).1 = 50
      rw [hs]
      rfl
    · show (aggregate ((sortedHistory s (s.employees.get ⟨i, hi⟩).id).map formatEntry)
        (s.employees.get ⟨i, hi⟩).static_driver).2
          = (s.employees.get ⟨i, hi⟩).static_driver
      rw [hs]
      rfl

/-- Sample store with one employee and two out-of-order entries, used to
witness the dashboard theorem on concrete data. -/
def storeDemo : Store :=
  ⟨[⟨1, "Riya", "Dev", "Eng", "Workload"⟩],
   [⟨1, 7, some "Happy", 80, "y", 0, "Team"⟩, ⟨1, 2, some "Tired", 40, "x", 0, "Workload"⟩],
   2⟩

theorem dashboard_complete_history_witness :
    (0 < storeDemo.employees.length) ∧
      ((get_hr_dashboard storeDemo).1.length = storeDemo.employees.length ∧
        (∃ hi2 : 0 < (get_hr_dashboard storeDemo).1.length,
          ((get_hr_dashboard storeDemo).1.get ⟨0, hi2⟩).id
            = (storeDemo.employees.get ⟨0, by decide⟩).id ∧
          ((get_hr_dashboard storeDemo).1.get ⟨0, hi2⟩).name
            = (storeDemo.employees.get ⟨0, by decide⟩).name ∧
          ((get_hr_dashboard storeDemo).1.get ⟨0, hi2⟩).role
            = (storeDemo.employees.get ⟨0, by decide⟩).role ∧
          ((get_hr_dashboard storeDemo).1.get ⟨0, hi2⟩).dept
            = (storeDemo.employees.get ⟨0, by decide⟩).dept ∧
          (∃ hist : List VibeEntry,
            ((get_hr_dashboard storeDemo).1.get ⟨0, hi2⟩).history = hist.map formatEntry ∧
            List.Perm hist (entriesFor storeDemo
              (storeDemo.employees.get ⟨0, by decide⟩).id) ∧
            List.Sorted byTime hist) ∧
          (entriesFor storeDemo (storeDemo.employees.get ⟨0, by decide⟩).id = [] →
            ((get_hr_dashboard storeDemo).1.get ⟨0, hi2⟩).avg_battery = 50 ∧
            ((get_hr_dashboard storeDemo).1.get ⟨0, hi2⟩).primary_driver
              = (storeDemo.employees.get ⟨0, by decide⟩).static_driver)) ∧
        (∀ e : VibeEntry,
          (formatEntry e).timestamp = e.timestamp ∧
          (formatEntry e).battery = e.battery ∧
          (formatEntry e).sentiment = e.sentiment ∧
          (formatEntry e).primary_driver = e.primary_driver ∧
          (formatEntry e).vent_text = e.vent_text)) :=
  ⟨by decide, dashboard_complete_history storeDemo 0 (by decide)⟩

end MoodSense
